import Mathlib

/-!
# fine-auth: verification of the credential/session core

Shallow embedding of the fine-auth library (Grenish/fine-auth): the
password hasher and session-token codec from `src/crypto.ts`, the
in-memory storage adapter from `src/adapters/memory.ts`, and the
`FineAuth` session-lifecycle orchestrator from `src/auth.ts`.

Strings are embedded as `List Char` (`Str`).  External cryptographic
primitives from `node:crypto` (HMAC-SHA256/base64url and scrypt) are
modelled as function parameters (`mac`, `scryptF`): they are
deterministic pure functions whose outputs the repository code treats
as opaque byte/character strings; hypotheses record the observable
facts the code relies on (a base64url digest is non-empty and contains
no `'.'`; scrypt with keylen 64 yields 64 bytes).  Timestamps
(`Date.now()`, `Date` values) are embedded as rationals (milliseconds),
passed explicitly where the code reads the clock.
-/

set_option autoImplicit false

namespace FineAuthProof

/-- Strings of the TypeScript source, embedded as lists of characters. -/
abbrev Str := List Char

/-- JavaScript `String.prototype.split` with a single-character
separator: `"".split(d) = [""]`, `"a.b".split(".") = ["a","b"]`,
`"a.".split(".") = ["a",""]`, `"a.b.c".split(".") = ["a","b","c"]`. -/
def splitChar (d : Char) : Str → List Str
  | [] => [[]]
  | c :: rest =>
    if c = d then [] :: splitChar d rest
    else
      match splitChar d rest with
      | [] => [[c]]
      | g :: gs => (c :: g) :: gs

/-- `splitChar` never produces the empty list of groups. -/
theorem splitChar_ne_nil (d : Char) (s : Str) : splitChar d s ≠ [] := by
  cases s with
  | nil => simp [splitChar]
  | cons c rest =>
    simp only [splitChar]
    split
    · simp
    · split <;> simp

/-- Splitting a delimiter-free string yields that single string. -/
theorem splitChar_eq_single (d : Char) (s : Str) (h : d ∉ s) :
    splitChar d s = [s] := by
  induction s with
  | nil => rfl
  | cons c rest ih =>
    simp only [List.mem_cons, not_or] at h
    have hc : ¬ c = d := fun hcd => h.1 hcd.symm
    simp only [splitChar, if_neg hc, ih h.2]

/-- Splitting `a ++ d :: b` where `a` is delimiter-free peels off `a`. -/
theorem splitChar_append (d : Char) (a b : Str) (ha : d ∉ a) :
    splitChar d (a ++ d :: b) = a :: splitChar d b := by
  induction a with
  | nil => simp [splitChar]
  | cons c a' ih =>
    simp only [List.mem_cons, not_or] at ha
    have hc : ¬ c = d := fun hcd => ha.1 hcd.symm
    have ih' : splitChar d (List.append a' (d :: b)) = a' :: splitChar d b := ih ha.2
    simp only [List.cons_append, splitChar, if_neg hc, ih']

/-- JavaScript whitespace test for the characters `String.prototype.trim`
strips (restricted to the ASCII whitespace the claims exercise). -/
def isJsWs (c : Char) : Bool := c = ' ' ∨ c = '\t' ∨ c = '\n' ∨ c = '\r'

/-- `String.prototype.trim`: strip leading and trailing whitespace. -/
def trimStr (s : Str) : Str :=
  ((s.dropWhile isJsWs).reverse.dropWhile isJsWs).reverse

/-- `String.prototype.toLowerCase` on one character (ASCII range). -/
def toLowerChar (c : Char) : Char :=
  if 'A' ≤ c ∧ c ≤ 'Z' then Char.ofNat (c.toNat + 32) else c

/-- `String.prototype.toLowerCase` (ASCII range). -/
def toLowerStr (s : Str) : Str := s.map toLowerChar

/-- Hex digit character for a value `0..15` (lower-case alphabet, as
produced by `Buffer.prototype.toString("hex")`). -/
def hexDigitCh (n : Nat) : Char :=
  match n with
  | 0 => '0' | 1 => '1' | 2 => '2' | 3 => '3' | 4 => '4'
  | 5 => '5' | 6 => '6' | 7 => '7' | 8 => '8' | 9 => '9'
  | 10 => 'a' | 11 => 'b' | 12 => 'c' | 13 => 'd' | 14 => 'e'
  | _ => 'f'

/-- Numeric value of a hex digit character (upper or lower case),
`none` on a non-hex character. -/
def hexVal (c : Char) : Option Nat :=
  if '0' ≤ c ∧ c ≤ '9' then some (c.toNat - '0'.toNat)
  else if 'a' ≤ c ∧ c ≤ 'f' then some (c.toNat - 'a'.toNat + 10)
  else if 'A' ≤ c ∧ c ≤ 'F' then some (c.toNat - 'A'.toNat + 10)
  else none

/-- `Buffer.prototype.toString("hex")`: two lower-case hex digits per
byte. -/
def hexEncode : List Nat → Str
  | [] => []
  | b :: bs => hexDigitCh (b / 16 % 16) :: hexDigitCh (b % 16) :: hexEncode bs

/-- `Buffer.from(s, "hex")`: decode pairs of hex digits into bytes,
stopping (as Node does) at the first invalid pair or dangling digit. -/
def hexDecode : Str → List Nat
  | c1 :: c2 :: rest =>
    match hexVal c1, hexVal c2 with
    | some hi, some lo => (16 * hi + lo) :: hexDecode rest
    | _, _ => []
  | _ => []

theorem hexVal_hexDigitCh (n : Nat) (h : n < 16) :
    hexVal (hexDigitCh n) = some n := by
  interval_cases n <;> decide

theorem hexDigitCh_ne_colon (n : Nat) : hexDigitCh n ≠ ':' := by
  unfold hexDigitCh
  split <;> decide

theorem hexDigitCh_ne_dot (n : Nat) : hexDigitCh n ≠ '.' := by
  unfold hexDigitCh
  split <;> decide

/-- Hex round-trip on genuine byte lists. -/
theorem hexDecode_hexEncode (bs : List Nat) (h : ∀ b ∈ bs, b < 256) :
    hexDecode (hexEncode bs) = bs := by
  induction bs with
  | nil => rfl
  | cons b bs ih =>
    have hb : b < 256 := h b (List.mem_cons_self b bs)
    have h1 : b / 16 % 16 < 16 := Nat.mod_lt _ (by norm_num)
    have h2 : b % 16 < 16 := Nat.mod_lt _ (by norm_num)
    have hd : b / 16 % 16 = b / 16 := Nat.mod_eq_of_lt (by omega)
    simp only [hexEncode, hexDecode, hexVal_hexDigitCh _ h1, hexVal_hexDigitCh _ h2,
      ih (fun x hx => h x (List.mem_cons_of_mem b hx))]
    congr 1
    rw [hd]
    omega

theorem colon_not_mem_hexEncode (bs : List Nat) : ':' ∉ hexEncode bs := by
  induction bs with
  | nil => simp [hexEncode]
  | cons b bs ih =>
    simp only [hexEncode, List.mem_cons, not_or]
    exact ⟨fun h => hexDigitCh_ne_colon _ h.symm, fun h => hexDigitCh_ne_colon _ h.symm, ih⟩

theorem hexEncode_ne_nil (bs : List Nat) (h : bs ≠ []) : hexEncode bs ≠ [] := by
  cases bs with
  | nil => exact absurd rfl h
  | cons b bs => simp [hexEncode]

/-! ## Credential hasher (`src/crypto.ts`)

`scryptF` stands for `scrypt(password, salt, 64)` from `node:crypto`:
a deterministic function of the password and the salt bytes; the code
relies only on its output being a 64-byte buffer.  The random salt
(`randomBytes(16)`) is passed in explicitly. -/

/-- `timingSafeEqual(a, b)` from `node:crypto`: throws on a length
mismatch, otherwise reports byte-wise equality.  Embedded with the
throw as `Except.error`. -/
def timingSafeEqual (a b : List Nat) : Except Unit Bool :=
  if a.length ≠ b.length then .error () else .ok (a = b)

/-- `hashPassword` (src/crypto.ts:24-28): scrypt-derive a 64-byte key
from the password and a fresh 16-byte salt and return
`salt.toString("hex") + ":" + derivedKey.toString("hex")`. -/
def hashPassword (scryptF : Str → List Nat → List Nat) (password : Str)
    (salt : List Nat) : Str :=
  hexEncode salt ++ ':' :: hexEncode (scryptF password salt)

/-- `verifyPassword` (src/crypto.ts:34-59): split the stored hash on
`":"`; unless that yields exactly two non-empty parts return `false`;
otherwise hex-decode salt and stored key, re-derive the key with
scrypt, and compare with `timingSafeEqual` — the surrounding
`try/catch` turns any thrown fault (in particular the length-mismatch
throw of `timingSafeEqual`) into `false`. -/
def verifyPassword (scryptF : Str → List Nat → List Nat)
    (password storedHash : Str) : Bool :=
  match splitChar ':' storedHash with
  | [saltHex, hashHex] =>
    if saltHex = [] ∨ hashHex = [] then false
    else
      let salt := hexDecode saltHex
      let storedKey := hexDecode hashHex
      let derivedKey := scryptF password salt
      match timingSafeEqual storedKey derivedKey with
      | .error _ => false
      | .ok b => b
  | _ => false

/-! ## Session token codec (`src/crypto.ts`)

`mac` stands for
`createHmac("sha256", secret).update(message).digest("base64url")`:
a deterministic function of the secret and the message.  Its output is
a 43-character base64url digest; the facts the code relies on — the
digest is non-empty and never contains the `'.'` delimiter — appear as
the hypothesis `macOk` where needed. -/

/-- The observable properties of the HMAC-SHA256/base64url digest that
the token codec relies on: non-empty and free of the `'.'` delimiter
(base64url uses only `A-Z a-z 0-9 - _`). -/
def macOk (mac : Str → Str → Str) : Prop :=
  ∀ secret message, mac secret message ≠ [] ∧ '.' ∉ mac secret message

/-- `signSessionId` (src/crypto.ts:157-165): HMAC-sign the session id
with the secret and return `sessionId + "." + signature`. -/
def signSessionId (mac : Str → Str → Str) (sessionId secret : Str) : Str :=
  sessionId ++ '.' :: mac secret sessionId

/-- `verifySessionId` (src/crypto.ts:171-204): split the token on
`"."`; require exactly two parts, both non-empty; recompute the
expected signature; reject on differing (byte) lengths, then compare
timing-safely; return the raw session id only on a match. -/
def verifySessionId (mac : Str → Str → Str) (token secret : Str) :
    Option Str :=
  match splitChar '.' token with
  | [sessionId, signature] =>
    if sessionId = [] ∨ signature = [] then none
    else
      let expectedSignature := mac secret sessionId
      if signature.length ≠ expectedSignature.length then none
      else if signature = expectedSignature then some sessionId
      else none
  | _ => none

/- `generateSessionId`/`generateUserId` draw random bytes; the models
of the lifecycle operations take the freshly drawn ids as explicit
arguments instead. -/

/-- A password verifies against its own hash (used by the sign-in
claims): needs the salt non-empty with byte-valued entries and scrypt
producing byte-valued output. -/
theorem verifyPassword_hashPassword (scryptF : Str → List Nat → List Nat)
    (password : Str) (salt : List Nat)
    (hsalt : salt ≠ []) (hsb : ∀ b ∈ salt, b < 256)
    (hklen : ∀ p s, (scryptF p s).length = 64)
    (hkb : ∀ p s, ∀ b ∈ scryptF p s, b < 256) :
    verifyPassword scryptF password (hashPassword scryptF password salt) = true := by
  have hk : scryptF password salt ≠ [] := by
    intro h
    have := hklen password salt
    rw [h] at this
    simp at this
  unfold verifyPassword hashPassword
  rw [splitChar_append ':' _ _ (colon_not_mem_hexEncode salt),
    splitChar_eq_single ':' _ (colon_not_mem_hexEncode _)]
  simp only [hexEncode_ne_nil salt hsalt, hexEncode_ne_nil _ hk, or_self, if_neg,
    hexDecode_hexEncode salt hsb, hexDecode_hexEncode _ (hkb password salt)]
  simp [timingSafeEqual]

/-- Token codec round-trip, for session ids that are non-empty and
free of the `'.'` delimiter (as every generated 64-hex-char id is). -/
theorem verifySessionId_signSessionId (mac : Str → Str → Str) (hm : macOk mac)
    (s k : Str) (hs : s ≠ []) (hd : '.' ∉ s) :
    verifySessionId mac (signSessionId mac s k) k = some s := by
  obtain ⟨hne, hnd⟩ := hm k s
  unfold verifySessionId signSessionId
  rw [splitChar_append '.' _ _ hd, splitChar_eq_single '.' _ hnd]
  simp [hs, hne]

/-! ## Data model (`src/types.ts`) -/

/-- `User` (src/types.ts:5-10). -/
structure User where
  id : Str
  email : Str
  hashedPassword : Str
  createdAt : ℚ
  deriving DecidableEq

/-- `SafeUser = Omit<User, "hashedPassword">` (src/types.ts:13): the
user shape returned to callers, with no credential-hash field. -/
structure SafeUser where
  id : Str
  email : Str
  createdAt : ℚ
  deriving DecidableEq

/-- `Session` (src/types.ts:19-24). -/
structure Session where
  id : Str
  userId : Str
  expiresAt : ℚ
  createdAt : ℚ
  deriving DecidableEq

/-- `AuthResult` (src/types.ts:30-33) as the current library returns
it.  Modelled from the spec: the `token` field (`sign(sessionId,
secret)`) is part of the v0.0.2 session-signing surface exercised by
the test suite and the changelog; the updated `types.ts`/`auth.ts` are
not in this snapshot. -/
structure AuthResult where
  user : SafeUser
  session : Session
  token : Str
  deriving DecidableEq

/-- The non-null payload of `SessionValidationResult`
(src/types.ts:35-38). -/
structure SessionValidationPayload where
  user : SafeUser
  session : Session
  deriving DecidableEq

instance {ε α : Type} [DecidableEq ε] [DecidableEq α] :
    DecidableEq (Except ε α)
  | .error e, .error f =>
    if h : e = f then .isTrue (congrArg Except.error h)
    else .isFalse (fun hc => h (Except.error.inj hc))
  | .error _, .ok _ => .isFalse (fun hc => Except.noConfusion hc)
  | .ok _, .error _ => .isFalse (fun hc => Except.noConfusion hc)
  | .ok x, .ok y =>
    if h : x = y then .isTrue (congrArg Except.ok h)
    else .isFalse (fun hc => h (Except.ok.inj hc))

/-- The error classes of `src/errors.ts`, identified by their
constructor (each fixes `name`, `message` default and `code`). -/
inductive AuthError where
  | invalidCredentials
  | userAlreadyExists
  | invalidSession
  | database
  | configuration
  deriving DecidableEq

/-- One call into the Storage Contract (`DatabaseAdapter`,
src/types.ts:75-93), recorded with its arguments so theorems can state
which storage operations an API call performs. -/
inductive Call where
  | getUserByEmail (email : Str)
  | createUser (email : Str)
  | getUserById (id : Str)
  | createSession (id : Str)
  | getSession (id : Str)
  | deleteSession (id : Str)
  | deleteUserSessions (userId : Str)
  deriving DecidableEq

/-! ## Association-list maps (the `Map` objects of the memory adapter) -/

/-- `Map.prototype.get`. -/
def mapGet {α : Type} (m : List (Str × α)) (k : Str) : Option α :=
  match m with
  | [] => none
  | (k', v) :: rest => if k' = k then some v else mapGet rest k

/-- `Map.prototype.set`: replace in place or append. -/
def mapSet {α : Type} (m : List (Str × α)) (k : Str) (v : α) :
    List (Str × α) :=
  match m with
  | [] => [(k, v)]
  | (k', v') :: rest =>
    if k' = k then (k, v) :: rest else (k', v') :: mapSet rest k v

/-- `Map.prototype.delete`. -/
def mapDelete {α : Type} (m : List (Str × α)) (k : Str) :
    List (Str × α) :=
  m.filter (fun p => p.1 ≠ k)

theorem mapGet_mapSet_self {α : Type} (m : List (Str × α)) (k : Str) (v : α) :
    mapGet (mapSet m k v) k = some v := by
  induction m with
  | nil => simp [mapGet, mapSet]
  | cons p rest ih =>
    obtain ⟨k', v'⟩ := p
    by_cases h : k' = k
    · simp [mapGet, mapSet, h]
    · simp [mapGet, mapSet, h, ih]

/-! ## In-memory storage adapter (`src/adapters/memory.ts`)

`createMemoryAdapter` closes over three maps; the closure state is the
`MemDB` record, and each adapter method is a function on it.  The
random `generateUserId()` draw inside `createUser` is passed in as the
explicit argument `uid`, and `new Date()` as `now`. -/

/-- The closure state of `createMemoryAdapter`: `users` (id → User),
`sessions` (id → Session) and `emailIndex` (lower-cased email → user
id). -/
structure MemDB where
  users : List (Str × User)
  sessions : List (Str × Session)
  emailIndex : List (Str × Str)
  deriving DecidableEq

namespace Mem

/-- `createUser` (memory adapter): store the user under its fresh id
and index `data.email.toLowerCase()`. -/
def createUser (db : MemDB) (uid email hashedPassword : Str) (now : ℚ) :
    User × MemDB :=
  let user : User := { id := uid, email := email,
                       hashedPassword := hashedPassword, createdAt := now }
  (user, { db with users := mapSet db.users uid user,
                   emailIndex := mapSet db.emailIndex (toLowerStr email) uid })

/-- `getUserByEmail` (memory adapter): look up
`email.toLowerCase()` in the index, then the user by id. -/
def getUserByEmail (db : MemDB) (email : Str) : Option User :=
  match mapGet db.emailIndex (toLowerStr email) with
  | none => none
  | some userId => mapGet db.users userId

/-- `getUserById` (memory adapter). -/
def getUserById (db : MemDB) (id : Str) : Option User :=
  mapGet db.users id

/-- `createSession` (memory adapter). -/
def createSession (db : MemDB) (sid userId : Str) (expiresAt now : ℚ) :
    Session × MemDB :=
  let session : Session := { id := sid, userId := userId,
                             expiresAt := expiresAt, createdAt := now }
  (session, { db with sessions := mapSet db.sessions sid session })

/-- `getSession` (memory adapter). -/
def getSession (db : MemDB) (id : Str) : Option Session :=
  mapGet db.sessions id

/-- `deleteSession` (memory adapter). -/
def deleteSession (db : MemDB) (id : Str) : MemDB :=
  { db with sessions := mapDelete db.sessions id }

/-- `deleteUserSessions` (memory adapter). -/
def deleteUserSessions (db : MemDB) (userId : Str) : MemDB :=
  { db with sessions := db.sessions.filter (fun p => p.2.userId ≠ userId) }

end Mem

/-! ## Session lifecycle manager (`src/auth.ts`)

The `FineAuth` class state that the claims exercise is its `config`
(secret) and the resolved `sessionExpiresIn`; the storage adapter is
the in-memory one above, threaded as explicit state.  Each operation
additionally returns the list of Storage Contract calls it performed.

The source `auth.ts` in this snapshot predates the v0.0.2 session
signing.  Modelled from the spec: the updated `signUp`/`signIn`
additionally return `sign(sessionId, secret)` as `token`, and the
updated `validateSession` takes the signed token and runs the Token
Codec verify before any storage access ("run the Token Codec verify
(§4.2); on failure return invalid immediately without touching
storage"), then performs exactly the stateful phase of the snapshot's
`validateSession` on the decoded id.  Everything else is translated
directly from `src/auth.ts`. -/

/-- `expiresIn` as the TypeScript union `string | number`
(src/types.ts:51). -/
inductive Duration where
  | str (s : Str)
  | num (n : ℚ)
  deriving DecidableEq

/-- ASCII decimal digit test (the `\d` of the duration regex). -/
def isDigitCh (c : Char) : Bool := '0' ≤ c ∧ c ≤ '9'

/-- `parseInt(ds, 10)` on a non-empty digit string. -/
def digitsToNat (ds : Str) : Nat :=
  ds.foldl (fun acc c => 10 * acc + (c.toNat - '0'.toNat)) 0

/-- `duration.match(/^(\d+)(ms|s|m|h|d)$/)`: the maximal leading digit
run, followed exactly by one of the five unit strings. -/
def matchDuration (s : Str) : Option (Nat × Str) :=
  let ds := s.takeWhile isDigitCh
  let unit := s.dropWhile isDigitCh
  if ds = [] then none
  else if unit = ['m', 's'] ∨ unit = ['s'] ∨ unit = ['m'] ∨ unit = ['h'] ∨
      unit = ['d'] then
    some (digitsToNat ds, unit)
  else none

/-- `parseDuration` (src/auth.ts:21-48): a number is returned
unchanged (no validation); a string must match the duration grammar or
a `ConfigurationError` is thrown; the value is scaled to
milliseconds. -/
def parseDuration : Duration → Except AuthError ℚ
  | .num n => .ok n
  | .str s =>
    match matchDuration s with
    | none => .error .configuration
    | some (v, unit) =>
      if unit = ['m', 's'] then .ok (v : ℚ)
      else if unit = ['s'] then .ok ((v : ℚ) * 1000)
      else if unit = ['m'] then .ok ((v : ℚ) * 60 * 1000)
      else if unit = ['h'] then .ok ((v : ℚ) * 60 * 60 * 1000)
      else .ok ((v : ℚ) * 24 * 60 * 60 * 1000)

/-- JavaScript truthiness of an `expiresIn` value: the empty string
and the number `0` are falsy. -/
def jsTruthyDuration : Duration → Bool
  | .str s => s ≠ []
  | .num n => n ≠ 0

/-- The constructor's session-TTL resolution (src/auth.ts:92-94):
`config.session?.expiresIn ? parseDuration(config.session.expiresIn)
: parseDuration("7d")` — an absent or *falsy* `expiresIn` (so also the
number `0`) falls back to the 7-day default. -/
def sessionExpiresInOf (expiresIn : Option Duration) : Except AuthError ℚ :=
  match expiresIn with
  | some v =>
    if jsTruthyDuration v then parseDuration v
    else parseDuration (.str ("7d".toList))
  | none => parseDuration (.str ("7d".toList))

/-- `toSafeUser` (src/auth.ts:53-64): keep only `id`, `email`,
`createdAt`. -/
def toSafeUser (user : User) : SafeUser :=
  { id := user.id, email := user.email, createdAt := user.createdAt }

/-- The `FineAuth` instance state the operations read: the configured
secret and the resolved `sessionExpiresIn` in milliseconds. -/
structure AuthConfig where
  secret : Str
  sessionExpiresIn : ℚ
  deriving DecidableEq

/-- `FineAuth.signUp` (src/auth.ts:101-133): normalize the email
(`email.trim().toLowerCase()`), reject if a user exists, hash the
password, create the user, create a session expiring at
`Date.now() + sessionExpiresIn`.  The random draws (`salt` of
`hashPassword`, `generateUserId()` as `uid`, `generateSessionId()` as
`sid`) and the clock `now` are explicit arguments.  Modelled from the
spec: the returned `token := sign(sessionId, secret)` field. -/
def signUp (scryptF : Str → List Nat → List Nat) (mac : Str → Str → Str)
    (cfg : AuthConfig) (db : MemDB) (email password : Str)
    (salt : List Nat) (uid sid : Str) (now : ℚ) :
    Except AuthError AuthResult × MemDB × List Call :=
  let normalizedEmail := toLowerStr (trimStr email)
  match Mem.getUserByEmail db normalizedEmail with
  | some _ => (.error .userAlreadyExists, db, [.getUserByEmail normalizedEmail])
  | none =>
    let hashedPassword := hashPassword scryptF password salt
    let ud := Mem.createUser db uid normalizedEmail hashedPassword now
    let sd := Mem.createSession ud.2 sid ud.1.id (now + cfg.sessionExpiresIn) now
    (.ok { user := toSafeUser ud.1, session := sd.1,
           token := signSessionId mac sd.1.id cfg.secret }, sd.2,
     [.getUserByEmail normalizedEmail, .createUser normalizedEmail,
      .createSession sid])

/-- `FineAuth.signIn` (src/auth.ts:139-168): normalize the email, look
the user up (absent ⇒ `InvalidCredentialsError`), verify the password
(mismatch ⇒ `InvalidCredentialsError`), then create a new session.
Modelled from the spec: the returned `token` field. -/
def signIn (scryptF : Str → List Nat → List Nat) (mac : Str → Str → Str)
    (cfg : AuthConfig) (db : MemDB) (email password : Str)
    (sid : Str) (now : ℚ) :
    Except AuthError AuthResult × MemDB × List Call :=
  let normalizedEmail := toLowerStr (trimStr email)
  match Mem.getUserByEmail db normalizedEmail with
  | none => (.error .invalidCredentials, db, [.getUserByEmail normalizedEmail])
  | some user =>
    if verifyPassword scryptF password user.hashedPassword then
      let sd := Mem.createSession db sid user.id (now + cfg.sessionExpiresIn) now
      (.ok { user := toSafeUser user, session := sd.1,
             token := signSessionId mac sd.1.id cfg.secret }, sd.2,
       [.getUserByEmail normalizedEmail, .createSession sid])
    else
      (.error .invalidCredentials, db, [.getUserByEmail normalizedEmail])

/-- The stateful phase of session validation (src/auth.ts:174-200):
fetch the session (absent ⇒ invalid); if `new Date() > expiresAt`
delete it and return invalid; fetch the owning user (absent ⇒ delete
the session, invalid); otherwise return the safe user and session. -/
def validateSessionById (db : MemDB) (sessionId : Str) (now : ℚ) :
    Option SessionValidationPayload × MemDB × List Call :=
  match Mem.getSession db sessionId with
  | none => (none, db, [.getSession sessionId])
  | some session =>
    if session.expiresAt < now then
      (none, Mem.deleteSession db sessionId,
       [.getSession sessionId, .deleteSession sessionId])
    else
      match Mem.getUserById db session.userId with
      | none =>
        (none, Mem.deleteSession db sessionId,
         [.getSession sessionId, .getUserById session.userId,
          .deleteSession sessionId])
      | some user =>
        (some { user := toSafeUser user, session := session }, db,
         [.getSession sessionId, .getUserById session.userId])

/-- `FineAuth.validateSession` on a signed token.  Modelled from the
spec (v0.0.2, changelog and tests; updated `auth.ts` not in this
snapshot): run `verifySessionId(token, secret)` first and return
invalid with no storage access on failure; on success run the
stateful phase on the decoded session id. -/
def validateSession (mac : Str → Str → Str) (cfg : AuthConfig)
    (db : MemDB) (token : Str) (now : ℚ) :
    Option SessionValidationPayload × MemDB × List Call :=
  match verifySessionId mac token cfg.secret with
  | none => (none, db, [])
  | some sessionId => validateSessionById db sessionId now

/-- `FineAuth.signOut` (src/auth.ts:205-207). -/
def signOut (db : MemDB) (sessionId : Str) : MemDB × List Call :=
  (Mem.deleteSession db sessionId, [.deleteSession sessionId])

/-- `FineAuth.signOutAll` (src/auth.ts:212-214). -/
def signOutAll (db : MemDB) (userId : Str) : MemDB × List Call :=
  (Mem.deleteUserSessions db userId, [.deleteUserSessions userId])

/-! ## Reduction lemmas for the lifecycle operations -/

/-- A successful `signUp` computed out: the created user, session,
token, updated storage, and call trace. -/
theorem signUp_success_shape (scryptF : Str → List Nat → List Nat)
    (mac : Str → Str → Str) (cfg : AuthConfig) (db : MemDB)
    (email password : Str) (salt : List Nat) (uid sid : Str) (now : ℚ)
    (h : Mem.getUserByEmail db (toLowerStr (trimStr email)) = none) :
    signUp scryptF mac cfg db email password salt uid sid now =
      (.ok { user := { id := uid, email := toLowerStr (trimStr email),
                       createdAt := now },
             session := { id := sid, userId := uid,
                          expiresAt := now + cfg.sessionExpiresIn,
                          createdAt := now },
             token := signSessionId mac sid cfg.secret },
       { users := mapSet db.users uid
           { id := uid, email := toLowerStr (trimStr email),
             hashedPassword := hashPassword scryptF password salt,
             createdAt := now },
         sessions := mapSet db.sessions sid
           { id := sid, userId := uid,
             expiresAt := now + cfg.sessionExpiresIn, createdAt := now },
         emailIndex := mapSet db.emailIndex
           (toLowerStr (toLowerStr (trimStr email))) uid },
       [.getUserByEmail (toLowerStr (trimStr email)),
        .createUser (toLowerStr (trimStr email)), .createSession sid]) := by
  simp [signUp, h, Mem.createUser, Mem.createSession, toSafeUser]

/-- A successful `signIn` computed out. -/
theorem signIn_success_shape (scryptF : Str → List Nat → List Nat)
    (mac : Str → Str → Str) (cfg : AuthConfig) (db : MemDB)
    (email password : Str) (sid : Str) (now : ℚ) (u : User)
    (h : Mem.getUserByEmail db (toLowerStr (trimStr email)) = some u)
    (hv : verifyPassword scryptF password u.hashedPassword = true) :
    signIn scryptF mac cfg db email password sid now =
      (.ok { user := toSafeUser u,
             session := { id := sid, userId := u.id,
                          expiresAt := now + cfg.sessionExpiresIn,
                          createdAt := now },
             token := signSessionId mac sid cfg.secret },
       { db with sessions := (mapSet db.sessions sid
           { id := sid, userId := u.id,
             expiresAt := now + cfg.sessionExpiresIn, createdAt := now }) },
       [.getUserByEmail (toLowerStr (trimStr email)), .createSession sid]) := by
  simp [signIn, h, hv, Mem.createSession]

/-! ## Concrete instances for witnesses -/

/-- A concrete stand-in for the HMAC digest function, with the
`macOk` properties (non-empty, `'.'`-free output). -/
def macConst : Str → Str → Str := fun _ _ => ['s', 'i', 'g']

theorem macConst_ok : macOk macConst := by
  intro secret message
  constructor <;> simp [macConst]

/-- A concrete stand-in for scrypt: 64 bytes of value 1. -/
def scryptConst : Str → List Nat → List Nat := fun _ _ => List.replicate 64 1

theorem scryptConst_len : ∀ p s, (scryptConst p s).length = 64 := by
  intro p s
  simp [scryptConst]

theorem scryptConst_bytes : ∀ p s, ∀ b ∈ scryptConst p s, b < 256 := by
  intro p s b hb
  simp [scryptConst] at hb
  omega

/-- The empty storage state. -/
def emptyDB : MemDB := { users := [], sessions := [], emailIndex := [] }

/-! ## Claims -/

/-- C1: for every token passed to `FineAuth.validateSession`, the
Token Codec verification (`verifySessionId` with the configured
secret) runs first, and if that stateless check fails the operation
returns invalid (`null`) with no Storage Contract call at all (no
`getSession`, no `getUserById`, no `deleteSession`): the result is
`none`, the storage state is unchanged, and the call trace is
empty. -/
theorem validateSession_badToken_noStorage (mac : Str → Str → Str)
    (cfg : AuthConfig) (db : MemDB) (token : Str) (now : ℚ)
    (h : verifySessionId mac token cfg.secret = none) :
    validateSession mac cfg db token now = (none, db, []) := by
  simp [validateSession, h]

/-- Witness for C1: a token without a `'.'` fails the stateless check
and triggers no storage access. -/
theorem validateSession_badToken_noStorage_witness :
    validateSession macConst { secret := ['k'], sessionExpiresIn := 1 }
      emptyDB ['x'] 0 = (none, emptyDB, []) :=
  validateSession_badToken_noStorage macConst
    { secret := ['k'], sessionExpiresIn := 1 } emptyDB ['x'] 0 (by decide)

/-- C3 counterexample: the round-trip `verify(sign(s, k), k) = s` as
stated — quantified over *all* session ids, including the empty one
and ids containing `'.'` — fails on the code: with a digest function
satisfying the base64url properties, the empty session id signs to a
token whose first segment is empty (rejected), and an id containing
`'.'` signs to a token with three segments (rejected). -/
theorem tokenCodec_roundTrip_counterexample :
    macOk macConst ∧
    verifySessionId macConst (signSessionId macConst [] ['k']) ['k'] = none ∧
    verifySessionId macConst
      (signSessionId macConst ['a', '.', 'b'] ['k']) ['k'] = none :=
  ⟨macConst_ok, by decide, by decide⟩

/-- C3 (amended): for every session id `s` that is non-empty and free
of the `'.'` delimiter (as all generated 64-hex-char session ids are)
and every secret `k`, `verifySessionId (signSessionId s k) k = s`. -/
theorem tokenCodec_roundTrip (mac : Str → Str → Str) (hm : macOk mac)
    (s k : Str) (hs : s ≠ []) (hd : '.' ∉ s) :
    verifySessionId mac (signSessionId mac s k) k = some s :=
  verifySessionId_signSessionId mac hm s k hs hd

/-- Witness for C3 (amended): round-trip at a concrete id/secret. -/
theorem tokenCodec_roundTrip_witness :
    verifySessionId macConst (signSessionId macConst ['a'] ['k']) ['k'] =
      some ['a'] :=
  tokenCodec_roundTrip macConst macConst_ok ['a'] ['k'] (by decide) (by decide)

/-- C4: `signIn` fails with literally the same
`InvalidCredentialsError` outcome — identical error value, unchanged
storage state, identical call trace — whether no user exists for the
canonical email or the user exists but the password does not verify;
the caller cannot distinguish the two cases from the result. -/
theorem signIn_uniform_invalidCredentials
    (scryptF : Str → List Nat → List Nat) (mac : Str → Str → Str)
    (cfg : AuthConfig) (db : MemDB) (email password sid : Str) (now : ℚ) :
    (Mem.getUserByEmail db (toLowerStr (trimStr email)) = none →
      signIn scryptF mac cfg db email password sid now =
        (.error .invalidCredentials, db,
         [.getUserByEmail (toLowerStr (trimStr email))])) ∧
    (∀ u, Mem.getUserByEmail db (toLowerStr (trimStr email)) = some u →
      verifyPassword scryptF password u.hashedPassword = false →
      signIn scryptF mac cfg db email password sid now =
        (.error .invalidCredentials, db,
         [.getUserByEmail (toLowerStr (trimStr email))])) := by
  constructor
  · intro h
    simp [signIn, h]
  · intro u h hv
    simp [signIn, h, hv]

/-- Witness for C4: both failure cases at concrete inputs produce the
same error result. -/
theorem signIn_uniform_invalidCredentials_witness :
    (signIn scryptConst macConst { secret := ['k'], sessionExpiresIn := 1 }
        emptyDB ['a'] ['p'] ['s'] 0 =
      (.error .invalidCredentials, emptyDB, [.getUserByEmail ['a']])) ∧
    (signIn scryptConst macConst { secret := ['k'], sessionExpiresIn := 1 }
        { users := [(['u'], { id := ['u'], email := ['a'],
                              hashedPassword := ['h'], createdAt := 0 })],
          sessions := [], emailIndex := [(['a'], ['u'])] }
        ['a'] ['p'] ['s'] 0 =
      (.error .invalidCredentials,
       { users := [(['u'], { id := ['u'], email := ['a'],
                             hashedPassword := ['h'], createdAt := 0 })],
         sessions := [], emailIndex := [(['a'], ['u'])] },
       [.getUserByEmail ['a']])) := by
  constructor
  · exact (signIn_uniform_invalidCredentials scryptConst macConst
      { secret := ['k'], sessionExpiresIn := 1 } emptyDB ['a'] ['p'] ['s'] 0).1
      (by decide)
  · exact (signIn_uniform_invalidCredentials scryptConst macConst
      { secret := ['k'], sessionExpiresIn := 1 }
      { users := [(['u'], { id := ['u'], email := ['a'],
                            hashedPassword := ['h'], createdAt := 0 })],
        sessions := [], emailIndex := [(['a'], ['u'])] }
      ['a'] ['p'] ['s'] 0).2
      { id := ['u'], email := ['a'], hashedPassword := ['h'], createdAt := 0 }
      (by decide) (by decide)

/-- C7: `verifyPassword` yields a `Bool` for every input (faults never
escape its boundary — internal throws are modelled and caught as
`false`): if splitting the stored hash on `':'` does not give exactly
two non-empty parts the result is `false`, and a stored-key length
that differs from the derived-key length (the case where
`timingSafeEqual` would throw) also yields `false`. -/
theorem verifyPassword_never_faults
    (scryptF : Str → List Nat → List Nat) (password storedHash : Str) :
    ((¬ ∃ a b, splitChar ':' storedHash = [a, b] ∧ a ≠ [] ∧ b ≠ []) →
      verifyPassword scryptF password storedHash = false) ∧
    (∀ a b, splitChar ':' storedHash = [a, b] → a ≠ [] → b ≠ [] →
      (hexDecode b).length ≠ (scryptF password (hexDecode a)).length →
      verifyPassword scryptF password storedHash = false) := by
  constructor
  · intro h
    unfold verifyPassword
    split
    · rename_i a b heq
      by_cases ha : a = []
      · simp [ha]
      · by_cases hb : b = []
        · simp [hb]
        · exact absurd ⟨a, b, heq, ha, hb⟩ h
    · rfl
  · intro a b heq ha hb hlen
    unfold verifyPassword
    rw [heq]
    simp only [ha, hb, or_self, if_neg, timingSafeEqual, if_pos hlen]
    simp [ha, hb]

/-- Witness for C7: a hash with no `':'` verifies to `false`, and a
well-delimited hash whose stored key is 1 byte (derived key: 64 bytes)
also verifies to `false`. -/
theorem verifyPassword_never_faults_witness :
    verifyPassword scryptConst ['p'] ['a', 'b'] = false ∧
    verifyPassword scryptConst ['p'] ['a', 'a', ':', 'b', 'b'] = false := by
  constructor
  · exact (verifyPassword_never_faults scryptConst ['p'] ['a', 'b']).1
      (by rintro ⟨a, b, h, -, -⟩
          rw [show splitChar ':' ['a', 'b'] = [['a', 'b']] from by decide] at h
          simp at h)
  · exact (verifyPassword_never_faults scryptConst ['p']
      ['a', 'a', ':', 'b', 'b']).2 ['a', 'a'] ['b', 'b']
      (by decide) (by decide) (by decide) (by decide)

/-- C2: every successful `signUp` returns the created user without
its credential hash (`toSafeUser`), the created session, and the token
`sign(sessionId, secret)` computed from the new session's id and the
configured secret; likewise every successful `signIn`. -/
theorem authResult_user_session_token
    (scryptF : Str → List Nat → List Nat) (mac : Str → Str → Str)
    (cfg : AuthConfig) (db : MemDB) (email password : Str)
    (salt : List Nat) (uid sid : Str) (now : ℚ) :
    (Mem.getUserByEmail db (toLowerStr (trimStr email)) = none →
      ∃ r db' t,
        signUp scryptF mac cfg db email password salt uid sid now =
          (.ok r, db', t) ∧
        r.token = signSessionId mac r.session.id cfg.secret ∧
        r.session.id = sid ∧
        r.user = toSafeUser
          { id := uid, email := toLowerStr (trimStr email),
            hashedPassword := hashPassword scryptF password salt,
            createdAt := now }) ∧
    (∀ u, Mem.getUserByEmail db (toLowerStr (trimStr email)) = some u →
      verifyPassword scryptF password u.hashedPassword = true →
      ∃ r db' t,
        signIn scryptF mac cfg db email password sid now =
          (.ok r, db', t) ∧
        r.token = signSessionId mac r.session.id cfg.secret ∧
        r.session.id = sid ∧
        r.user = toSafeUser u) := by
  constructor
  · intro h
    exact ⟨_, _, _,
      signUp_success_shape scryptF mac cfg db email password salt uid sid now h,
      rfl, rfl, rfl⟩
  · intro u h hv
    exact ⟨_, _, _,
      signIn_success_shape scryptF mac cfg db email password sid now u h hv,
      rfl, rfl, rfl⟩

/-- Witness for C2: a concrete sign-up on the empty store, and a
concrete sign-in against a stored user with a matching hash, both
return user, session and signed token. -/
theorem authResult_user_session_token_witness :
    (∃ r db' t,
      signUp scryptConst macConst { secret := ['k'], sessionExpiresIn := 9 }
          emptyDB ['a'] ['p'] [2] ['u'] ['s'] 0 =
        (.ok r, db', t) ∧
      r.token = signSessionId macConst r.session.id ['k'] ∧
      r.session.id = ['s'] ∧
      r.user = toSafeUser
        { id := ['u'], email := ['a'],
          hashedPassword := hashPassword scryptConst ['p'] [2],
          createdAt := 0 }) ∧
    (∃ r db' t,
      signIn scryptConst macConst { secret := ['k'], sessionExpiresIn := 9 }
          { users := [(['u'], { id := ['u'], email := ['a'],
                                hashedPassword :=
                                  hashPassword scryptConst ['p'] [2],
                                createdAt := 0 })],
            sessions := [], emailIndex := [(['a'], ['u'])] }
          ['a'] ['p'] ['s'] 0 =
        (.ok r, db', t) ∧
      r.token = signSessionId macConst r.session.id ['k'] ∧
      r.session.id = ['s'] ∧
      r.user = toSafeUser { id := ['u'], email := ['a'],
                            hashedPassword :=
                              hashPassword scryptConst ['p'] [2],
                            createdAt := 0 }) := by
  constructor
  · exact (authResult_user_session_token scryptConst macConst
      { secret := ['k'], sessionExpiresIn := 9 } emptyDB ['a'] ['p'] [2]
      ['u'] ['s'] 0).1 (by decide)
  · exact (authResult_user_session_token scryptConst macConst
      { secret := ['k'], sessionExpiresIn := 9 }
      { users := [(['u'], { id := ['u'], email := ['a'],
                            hashedPassword :=
                              hashPassword scryptConst ['p'] [2],
                            createdAt := 0 })],
        sessions := [], emailIndex := [(['a'], ['u'])] }
      ['a'] ['p'] [2] ['u'] ['s'] 0).2
      { id := ['u'], email := ['a'],
        hashedPassword := hashPassword scryptConst ['p'] [2], createdAt := 0 }
      rfl
      (verifyPassword_hashPassword scryptConst ['p'] [2] (by decide)
        (by decide) scryptConst_len scryptConst_bytes)

/-- C5: every user object the public operations return is the
`toSafeUser` projection of a stored/created `User` — it carries
exactly `id`, `email`, `createdAt` (the `SafeUser` shape has no
`hashedPassword` field at all). -/
theorem public_ops_return_safe_user
    (scryptF : Str → List Nat → List Nat) (mac : Str → Str → Str)
    (cfg : AuthConfig) (db : MemDB) (email password : Str)
    (salt : List Nat) (uid sid token : Str) (now : ℚ) :
    (∀ u : User, toSafeUser u =
      { id := u.id, email := u.email, createdAt := u.createdAt }) ∧
    (∀ r db' t,
      signUp scryptF mac cfg db email password salt uid sid now =
        (.ok r, db', t) → ∃ u, r.user = toSafeUser u) ∧
    (∀ r db' t,
      signIn scryptF mac cfg db email password sid now =
        (.ok r, db', t) → ∃ u, r.user = toSafeUser u) ∧
    (∀ p db' t,
      validateSession mac cfg db token now =
        (some p, db', t) → ∃ u, p.user = toSafeUser u) := by
  refine ⟨fun u => rfl, ?_, ?_, ?_⟩
  · intro r db' t h
    cases hg : Mem.getUserByEmail db (toLowerStr (trimStr email)) with
    | some u => simp [signUp, hg] at h
    | none =>
      rw [signUp_success_shape scryptF mac cfg db email password salt uid sid
        now hg] at h
      rw [Prod.mk.injEq] at h
      obtain ⟨h1, -⟩ := h
      injection h1 with h1
      subst h1
      exact ⟨{ id := uid, email := toLowerStr (trimStr email),
               hashedPassword := hashPassword scryptF password salt,
               createdAt := now }, rfl⟩
  · intro r db' t h
    cases hg : Mem.getUserByEmail db (toLowerStr (trimStr email)) with
    | none => simp [signIn, hg] at h
    | some u =>
      by_cases hv : verifyPassword scryptF password u.hashedPassword = true
      · rw [signIn_success_shape scryptF mac cfg db email password sid now u
          hg hv] at h
        rw [Prod.mk.injEq] at h
        obtain ⟨h1, -⟩ := h
        injection h1 with h1
        subst h1
        exact ⟨u, rfl⟩
      · simp [signIn, hg, hv] at h
  · intro p db' t h
    cases hw : verifySessionId mac token cfg.secret with
    | none => simp [validateSession, hw] at h
    | some sessionId =>
      simp only [validateSession, hw] at h
      cases hs : Mem.getSession db sessionId with
      | none => simp [validateSessionById, hs] at h
      | some s =>
        by_cases he : s.expiresAt < now
        · simp [validateSessionById, hs, he] at h
        · cases hu : Mem.getUserById db s.userId with
          | none => simp [validateSessionById, hs, he, hu] at h
          | some u =>
            simp only [validateSessionById, hs, if_neg he, hu] at h
            rw [Prod.mk.injEq] at h
            obtain ⟨h1, -⟩ := h
            injection h1 with h1
            subst h1
            exact ⟨u, rfl⟩

/-- Witness for C5: each public operation at a concrete input returns
a `toSafeUser` projection. -/
theorem public_ops_return_safe_user_witness :
    (∃ u, ({ user := { id := ['u'], email := toLowerStr (trimStr ['a']),
                       createdAt := 0 },
             session := { id := ['s'], userId := ['u'],
                          expiresAt :=
                            0 + (AuthConfig.mk ['k'] 9).sessionExpiresIn,
                          createdAt := 0 },
             token := signSessionId macConst ['s']
               (AuthConfig.mk ['k'] 9).secret } : AuthResult).user =
            toSafeUser u) ∧
    (∃ u, ({ user := { id := ['u'], email := ['a'], createdAt := 0 },
             session := { id := ['s'], userId := ['u'], expiresAt := 10,
                          createdAt := 0 } } : SessionValidationPayload).user =
            toSafeUser u) := by
  constructor
  · exact (public_ops_return_safe_user scryptConst macConst
      (AuthConfig.mk ['k'] 9) emptyDB ['a'] ['p'] [2]
      ['u'] ['s'] [] 0).2.1 _ _ _
      (signUp_success_shape scryptConst macConst
        (AuthConfig.mk ['k'] 9) emptyDB ['a'] ['p'] [2]
        ['u'] ['s'] 0 (by decide))
  · exact (public_ops_return_safe_user scryptConst macConst
      (AuthConfig.mk ['k'] 9)
      { users := [(['u'], { id := ['u'], email := ['a'],
                            hashedPassword := ['h'], createdAt := 0 })],
        sessions := [(['s'], { id := ['s'], userId := ['u'],
                               expiresAt := 10, createdAt := 0 })],
        emailIndex := [(['a'], ['u'])] }
      ['a'] ['p'] [2] ['u'] ['s']
      (signSessionId macConst ['s'] ['k']) 5).2.2.2
      { user := { id := ['u'], email := ['a'], createdAt := 0 },
        session := { id := ['s'], userId := ['u'], expiresAt := 10,
                     createdAt := 0 } }
      { users := [(['u'], { id := ['u'], email := ['a'],
                            hashedPassword := ['h'], createdAt := 0 })],
        sessions := [(['s'], { id := ['s'], userId := ['u'],
                               expiresAt := 10, createdAt := 0 })],
        emailIndex := [(['a'], ['u'])] }
      [.getSession ['s'], .getUserById ['u']] (by decide)

/-- C9: failed authentication operations are atomic with respect to
storage: whenever `signUp` fails (`UserAlreadyExistsError`) or
`signIn` fails (`InvalidCredentialsError`) the storage state returned
is exactly the input state — no user and no session was created. -/
theorem failed_ops_state_unchanged
    (scryptF : Str → List Nat → List Nat) (mac : Str → Str → Str)
    (cfg : AuthConfig) (db : MemDB) (email password : Str)
    (salt : List Nat) (uid sid : Str) (now : ℚ) :
    (∀ e db' t,
      signUp scryptF mac cfg db email password salt uid sid now =
        (.error e, db', t) → db' = db) ∧
    (∀ e db' t,
      signIn scryptF mac cfg db email password sid now =
        (.error e, db', t) → db' = db) := by
  constructor
  · intro e db' t h
    cases hg : Mem.getUserByEmail db (toLowerStr (trimStr email)) with
    | some u =>
      simp only [signUp, hg, Prod.mk.injEq] at h
      exact h.2.1.symm
    | none =>
      rw [signUp_success_shape scryptF mac cfg db email password salt uid sid
        now hg] at h
      simp at h
  · intro e db' t h
    cases hg : Mem.getUserByEmail db (toLowerStr (trimStr email)) with
    | none =>
      simp only [signIn, hg, Prod.mk.injEq] at h
      exact h.2.1.symm
    | some u =>
      by_cases hv : verifyPassword scryptF password u.hashedPassword = true
      · rw [signIn_success_shape scryptF mac cfg db email password sid now u
          hg hv] at h
        simp at h
      · simp only [signIn, hg, if_neg hv, Prod.mk.injEq] at h
        exact h.2.1.symm

/-- Witness for C9: a duplicate sign-up and a wrong-password sign-in
at concrete inputs leave the concrete store unchanged. -/
theorem failed_ops_state_unchanged_witness :
    ({ users := [(['u'], { id := ['u'], email := ['a'],
                           hashedPassword := ['h'], createdAt := 0 })],
       sessions := [], emailIndex := [(['a'], ['u'])] } : MemDB) =
      { users := [(['u'], { id := ['u'], email := ['a'],
                            hashedPassword := ['h'], createdAt := 0 })],
        sessions := [], emailIndex := [(['a'], ['u'])] } ∧
    emptyDB = emptyDB := by
  constructor
  · exact (failed_ops_state_unchanged scryptConst macConst
      { secret := ['k'], sessionExpiresIn := 9 }
      { users := [(['u'], { id := ['u'], email := ['a'],
                            hashedPassword := ['h'], createdAt := 0 })],
        sessions := [], emailIndex := [(['a'], ['u'])] }
      ['a'] ['p'] [2] ['w'] ['s'] 0).1 .userAlreadyExists
      { users := [(['u'], { id := ['u'], email := ['a'],
                            hashedPassword := ['h'], createdAt := 0 })],
        sessions := [], emailIndex := [(['a'], ['u'])] }
      [.getUserByEmail ['a']] (by decide)
  · exact (failed_ops_state_unchanged scryptConst macConst
      { secret := ['k'], sessionExpiresIn := 9 } emptyDB
      ['a'] ['p'] [2] ['w'] ['s'] 0).2 .invalidCredentials emptyDB
      [.getUserByEmail ['a']] (by decide)

/-- C6 counterexample: the claim's second half — "sessions whose
`expiresAt` is not in the past are not deleted by validation" — fails
on the code: validation of a *non-expired* session whose owning user
record is absent (orphaned session) also calls `deleteSession` and
removes the record. -/
theorem validateSession_unexpired_orphan_deleted :
    Mem.getSession
        { users := [], emailIndex := [],
          sessions := [(['s'], { id := ['s'], userId := ['u'],
                                 expiresAt := 9, createdAt := 0 })] } ['s'] =
      some { id := ['s'], userId := ['u'], expiresAt := 9, createdAt := 0 } ∧
    ¬ ((9 : ℚ) < 5) ∧
    validateSession macConst { secret := ['k'], sessionExpiresIn := 9 }
        { users := [], emailIndex := [],
          sessions := [(['s'], { id := ['s'], userId := ['u'],
                                 expiresAt := 9, createdAt := 0 })] }
        (signSessionId macConst ['s'] ['k']) 5 =
      (none,
       { users := [], emailIndex := [], sessions := [] },
       [.getSession ['s'], .getUserById ['u'], .deleteSession ['s']]) := by
  refine ⟨by decide, by decide, by decide⟩

/-- C6 (amended): when the token verifies and the session is stored,
validation of a session whose `expiresAt` is strictly before `now`
deletes the record (`deleteSession` is called with its id) and returns
invalid (`none`); a session whose `expiresAt` is not in the past is
not deleted — provided its owning user still exists (orphaned
sessions are deleted by validation even when unexpired). -/
theorem validateSession_lazy_expiry (mac : Str → Str → Str)
    (cfg : AuthConfig) (db : MemDB) (token sid : Str) (now : ℚ)
    (s : Session)
    (hv : verifySessionId mac token cfg.secret = some sid)
    (hs : Mem.getSession db sid = some s) :
    (s.expiresAt < now →
      validateSession mac cfg db token now =
        (none, Mem.deleteSession db sid,
         [.getSession sid, .deleteSession sid])) ∧
    (¬ s.expiresAt < now → ∀ u, Mem.getUserById db s.userId = some u →
      validateSession mac cfg db token now =
        (some { user := toSafeUser u, session := s }, db,
         [.getSession sid, .getUserById s.userId])) := by
  constructor
  · intro he
    simp only [validateSession, hv, validateSessionById, hs, if_pos he]
  · intro he u hu
    simp only [validateSession, hv, validateSessionById, hs, if_neg he, hu]

/-- Witness for C6 (amended): an expired session is deleted and
invalid; an unexpired session with a live user is returned and kept. -/
theorem validateSession_lazy_expiry_witness :
    (validateSession macConst { secret := ['k'], sessionExpiresIn := 9 }
        { users := [(['u'], { id := ['u'], email := ['a'],
                              hashedPassword := ['h'], createdAt := 0 })],
          sessions := [(['s'], { id := ['s'], userId := ['u'],
                                 expiresAt := 1, createdAt := 0 })],
          emailIndex := [(['a'], ['u'])] }
        (signSessionId macConst ['s'] ['k']) 5 =
      (none,
       Mem.deleteSession
         { users := [(['u'], { id := ['u'], email := ['a'],
                               hashedPassword := ['h'], createdAt := 0 })],
           sessions := [(['s'], { id := ['s'], userId := ['u'],
                                  expiresAt := 1, createdAt := 0 })],
           emailIndex := [(['a'], ['u'])] } ['s'],
       [.getSession ['s'], .deleteSession ['s']])) ∧
    (validateSession macConst { secret := ['k'], sessionExpiresIn := 9 }
        { users := [(['u'], { id := ['u'], email := ['a'],
                              hashedPassword := ['h'], createdAt := 0 })],
          sessions := [(['s'], { id := ['s'], userId := ['u'],
                                 expiresAt := 9, createdAt := 0 })],
          emailIndex := [(['a'], ['u'])] }
        (signSessionId macConst ['s'] ['k']) 5 =
      (some { user := toSafeUser { id := ['u'], email := ['a'],
                                   hashedPassword := ['h'], createdAt := 0 },
              session := { id := ['s'], userId := ['u'], expiresAt := 9,
                           createdAt := 0 } },
       { users := [(['u'], { id := ['u'], email := ['a'],
                             hashedPassword := ['h'], createdAt := 0 })],
         sessions := [(['s'], { id := ['s'], userId := ['u'],
                                expiresAt := 9, createdAt := 0 })],
         emailIndex := [(['a'], ['u'])] },
       [.getSession ['s'], .getUserById ['u']])) := by
  constructor
  · exact (validateSession_lazy_expiry macConst
      { secret := ['k'], sessionExpiresIn := 9 }
      { users := [(['u'], { id := ['u'], email := ['a'],
                            hashedPassword := ['h'], createdAt := 0 })],
        sessions := [(['s'], { id := ['s'], userId := ['u'],
                               expiresAt := 1, createdAt := 0 })],
        emailIndex := [(['a'], ['u'])] }
      (signSessionId macConst ['s'] ['k']) ['s'] 5
      { id := ['s'], userId := ['u'], expiresAt := 1, createdAt := 0 }
      (by decide) (by decide)).1 (by decide)
  · exact (validateSession_lazy_expiry macConst
      { secret := ['k'], sessionExpiresIn := 9 }
      { users := [(['u'], { id := ['u'], email := ['a'],
                            hashedPassword := ['h'], createdAt := 0 })],
        sessions := [(['s'], { id := ['s'], userId := ['u'],
                               expiresAt := 9, createdAt := 0 })],
        emailIndex := [(['a'], ['u'])] }
      (signSessionId macConst ['s'] ['k']) ['s'] 5
      { id := ['s'], userId := ['u'], expiresAt := 9, createdAt := 0 }
      (by decide) (by decide)).2 (by decide)
      { id := ['u'], email := ['a'], hashedPassword := ['h'], createdAt := 0 }
      (by decide)

/-- Looking up the canonical email right after `Mem.createUser` stored
a user for it finds that user (the email key is already in canonical
form). -/
theorem mem_getUserByEmail_after_set (us : List (Str × User))
    (ss : List (Str × Session)) (ei : List (Str × Str))
    (uid canon : Str) (u : User) (hcanon : toLowerStr canon = canon) :
    Mem.getUserByEmail
      { users := mapSet us uid u, sessions := ss,
        emailIndex := mapSet ei canon uid } canon = some u := by
  unfold Mem.getUserByEmail
  simp only [hcanon, mapGet_mapSet_self]

/-- C8: signing up with `" User@Example.COM "` and then signing in
with `"user@example.com"` (same password) resolves to the same user:
both operations canonicalize the email (trim + lower-case) before any
storage access, so the sign-in succeeds and returns the user id the
sign-up created. -/
theorem email_canonicalization_same_user
    (scryptF : Str → List Nat → List Nat) (mac : Str → Str → Str)
    (cfg : AuthConfig) (db : MemDB) (password : Str) (salt : List Nat)
    (uid sid sid2 : Str) (now now2 : ℚ)
    (hsalt : salt ≠ []) (hsb : ∀ b ∈ salt, b < 256)
    (hklen : ∀ p s, (scryptF p s).length = 64)
    (hkb : ∀ p s, ∀ b ∈ scryptF p s, b < 256)
    (hdb : Mem.getUserByEmail db ("user@example.com".toList) = none) :
    (∃ r1, (signUp scryptF mac cfg db (" User@Example.COM ".toList)
        password salt uid sid now).1 = .ok r1 ∧ r1.user.id = uid ∧
      r1.user.email = "user@example.com".toList) ∧
    (∃ r2, (signIn scryptF mac cfg
        (signUp scryptF mac cfg db (" User@Example.COM ".toList)
          password salt uid sid now).2.1
        ("user@example.com".toList) password sid2 now2).1 = .ok r2 ∧
      r2.user.id = uid) := by
  have hc1 : toLowerStr (trimStr (" User@Example.COM ".toList)) =
      "user@example.com".toList := by decide
  have hc2 : toLowerStr (trimStr ("user@example.com".toList)) =
      "user@example.com".toList := by decide
  have hc3 : toLowerStr ("user@example.com".toList) =
      "user@example.com".toList := by decide
  have h1 := signUp_success_shape scryptF mac cfg db
    (" User@Example.COM ".toList) password salt uid sid now
    (by rw [hc1]; exact hdb)
  rw [hc1, hc3] at h1
  constructor
  · refine ⟨{ user := { id := uid, email := "user@example.com".toList,
                        createdAt := now },
              session := { id := sid, userId := uid,
                           expiresAt := now + cfg.sessionExpiresIn,
                           createdAt := now },
              token := signSessionId mac sid cfg.secret }, ?_, rfl, rfl⟩
    rw [h1]
  · have hfound : Mem.getUserByEmail
        ((signUp scryptF mac cfg db (" User@Example.COM ".toList)
          password salt uid sid now).2.1)
        (toLowerStr (trimStr ("user@example.com".toList))) =
        some { id := uid, email := "user@example.com".toList,
               hashedPassword := hashPassword scryptF password salt,
               createdAt := now } := by
      rw [hc2, h1]
      exact mem_getUserByEmail_after_set db.users _ db.emailIndex uid _ _ hc3
    have hv : verifyPassword scryptF password
        (hashPassword scryptF password salt) = true :=
      verifyPassword_hashPassword scryptF password salt hsalt hsb hklen hkb
    have h2 := signIn_success_shape scryptF mac cfg _
      ("user@example.com".toList) password sid2 now2
      { id := uid, email := "user@example.com".toList,
        hashedPassword := hashPassword scryptF password salt,
        createdAt := now } hfound hv
    refine ⟨{ user := toSafeUser
                { id := uid, email := "user@example.com".toList,
                  hashedPassword := hashPassword scryptF password salt,
                  createdAt := now },
              session := { id := sid2, userId := uid,
                           expiresAt := now2 + cfg.sessionExpiresIn,
                           createdAt := now2 },
              token := signSessionId mac sid2 cfg.secret }, ?_, rfl⟩
    rw [h2]

/-- Witness for C8: the canonicalization round-trip at fully concrete
inputs. -/
theorem email_canonicalization_same_user_witness :
    (∃ r1, (signUp scryptConst macConst
        { secret := ['k'], sessionExpiresIn := 9 } emptyDB
        (" User@Example.COM ".toList) ['p'] [2] ['u'] ['s'] 0).1 =
        .ok r1 ∧ r1.user.id = ['u'] ∧
      r1.user.email = "user@example.com".toList) ∧
    (∃ r2, (signIn scryptConst macConst
        { secret := ['k'], sessionExpiresIn := 9 }
        (signUp scryptConst macConst
          { secret := ['k'], sessionExpiresIn := 9 } emptyDB
          (" User@Example.COM ".toList) ['p'] [2] ['u'] ['s'] 0).2.1
        ("user@example.com".toList) ['p'] ['t'] 1).1 = .ok r2 ∧
      r2.user.id = ['u']) :=
  email_canonicalization_same_user scryptConst macConst
    { secret := ['k'], sessionExpiresIn := 9 } emptyDB ['p'] [2]
    ['u'] ['s'] ['t'] 0 1 (by decide) (by decide)
    scryptConst_len scryptConst_bytes (by decide)

/-- Validation of a session that the store holds and whose
`expiresAt` is strictly before `now` deletes it and reports invalid. -/
theorem validateSession_expired_of (mac : Str → Str → Str)
    (cfg : AuthConfig) (db : MemDB) (token sid : Str) (s : Session)
    (now : ℚ)
    (hv : verifySessionId mac token cfg.secret = some sid)
    (hs : Mem.getSession db sid = some s)
    (he : s.expiresAt < now) :
    validateSession mac cfg db token now =
      (none, Mem.deleteSession db sid,
       [.getSession sid, .deleteSession sid]) := by
  simp only [validateSession, hv, validateSessionById, hs, if_pos he]

/-- The default duration literal resolves to 7 days in
milliseconds. -/
theorem parseDuration_7d :
    parseDuration (.str ("7d".toList)) = .ok 604800000 := by
  have h1 : matchDuration ("7d".toList) = some (7, ['d']) := by decide
  simp only [parseDuration, h1]
  rw [if_neg (by decide), if_neg (by decide), if_neg (by decide),
    if_neg (by decide)]
  congr 1
  norm_num

/-- `expiresIn = 0` is falsy, so the constructor resolves the TTL to
the 7-day default. -/
theorem sessionExpiresInOf_zero :
    sessionExpiresInOf (some (.num 0)) = .ok 604800000 := by
  simp only [sessionExpiresInOf, jsTruthyDuration]
  rw [if_neg (by decide)]
  exact parseDuration_7d

/-- C10 counterexample: `session.expiresIn = 0` is *not* used as a
zero-millisecond TTL — the constructor's JavaScript truthiness check
(`config.session?.expiresIn ? parseDuration(...) : parseDuration("7d")`)
treats the number 0 as falsy and silently substitutes the 7-day
default (604800000 ms), so the resulting sessions expire well after
their creation time instead of at it. -/
theorem expiresIn_zero_ignored :
    sessionExpiresInOf (some (.num 0)) = .ok 604800000 ∧
    ¬ sessionExpiresInOf (some (.num 0)) = .ok 0 := by
  refine ⟨sessionExpiresInOf_zero, ?_⟩
  rw [sessionExpiresInOf_zero]
  intro hc
  injection hc with hc
  norm_num at hc

/-- C10 (amended): a *nonzero* raw number supplied as
`session.expiresIn` is used as the TTL in milliseconds with no
validation at construction (negative and fractional rationals pass
through unchanged), while zero is falsy and silently falls back to
the 7-day default; with a negative TTL, every session a successful
sign-up creates has `expiresAt` strictly before its creation time, so
any later `validateSession` on its token returns invalid and deletes
the record. -/
theorem expiresIn_number_ttl (q : ℚ)
    (scryptF : Str → List Nat → List Nat) (mac : Str → Str → Str)
    (hm : macOk mac) (secret : Str) (db : MemDB)
    (email password : Str) (salt : List Nat) (uid sid : Str)
    (now now2 : ℚ)
    (hsid : sid ≠ []) (hsdot : '.' ∉ sid)
    (hdb : Mem.getUserByEmail db (toLowerStr (trimStr email)) = none) :
    (q ≠ 0 → sessionExpiresInOf (some (.num q)) = .ok q) ∧
    sessionExpiresInOf (some (.num 0)) = .ok 604800000 ∧
    (q < 0 → now ≤ now2 →
      ∀ r db1 t1,
        signUp scryptF mac { secret := secret, sessionExpiresIn := q } db
          email password salt uid sid now = (.ok r, db1, t1) →
        r.session.expiresAt < now ∧
        validateSession mac { secret := secret, sessionExpiresIn := q } db1
          r.token now2 =
          (none, Mem.deleteSession db1 sid,
           [.getSession sid, .deleteSession sid])) := by
  refine ⟨?_, sessionExpiresInOf_zero, ?_⟩
  · intro hq
    simp only [sessionExpiresInOf, jsTruthyDuration]
    rw [if_pos (decide_eq_true hq)]
    rfl
  · intro hneg hle r db1 t1 h
    rw [signUp_success_shape scryptF mac
      { secret := secret, sessionExpiresIn := q } db email password salt
      uid sid now hdb] at h
    simp only [Prod.mk.injEq] at h
    obtain ⟨h1, h2, h3⟩ := h
    injection h1 with h1
    subst h1
    subst h2
    subst h3
    refine ⟨?_, ?_⟩
    · show now + q < now
      linarith
    · exact validateSession_expired_of mac
        { secret := secret, sessionExpiresIn := q } _ _ sid _ now2
        (verifySessionId_signSessionId mac hm sid secret hsid hsdot)
        (mapGet_mapSet_self db.sessions sid _)
        (by show now + q < now2; linarith)

/-- Witness for C10 (amended): TTL `-1` at fully concrete inputs. -/
theorem expiresIn_number_ttl_witness :
    (((-1 : ℚ) ≠ 0 → sessionExpiresInOf (some (.num (-1))) = .ok (-1)) ∧
      sessionExpiresInOf (some (.num 0)) = .ok 604800000 ∧
      ((-1 : ℚ) < 0 → (0 : ℚ) ≤ 3 →
        ∀ r db1 t1,
          signUp scryptConst macConst
            { secret := ['k'], sessionExpiresIn := (-1 : ℚ) } emptyDB
            ['a'] ['p'] [2] ['u'] ['s'] 0 = (.ok r, db1, t1) →
          r.session.expiresAt < 0 ∧
          validateSession macConst
            { secret := ['k'], sessionExpiresIn := (-1 : ℚ) } db1
            r.token 3 =
            (none, Mem.deleteSession db1 ['s'],
             [.getSession ['s'], .deleteSession ['s']]))) ∧
    sessionExpiresInOf (some (.num (-1))) = .ok (-1) :=
  have h := expiresIn_number_ttl (-1) scryptConst macConst macConst_ok
    ['k'] emptyDB ['a'] ['p'] [2] ['u'] ['s'] 0 3
    (by decide) (by decide) (by decide)
  ⟨h, h.1 (by norm_num)⟩

end FineAuthProof
